import Mathlib

/-!
# Home Value Estimator — verification of the frontend script

A shallow embedding of `code/frontend/script (1).js` of the CS2104-Project
repository (a home-value-estimator web app), together with proofs about the
embedded operations.

Conventions of the embedding:
* DOM input values are `String`s; `parseInt(x) || 0` is `parseIntOr0`.
* JS falsy-coalescing `x || null` on a number is `jsOrNull`.
* The DOM page set is a `NavState` (which page elements exist, which are
  displayed); mutation of the module-level `currentPage` / `selectedProperty`
  globals is explicit state passing.
* The valuation aggregator of the design document lives in the Python backend,
  which is not among the repository's frontend files; it is modelled from the
  specification text and marked as such.
-/

namespace HomeValue

/-! ## Valuation aggregation (spec-modelled) -/

inductive Confidence
  | high
  | medium
  | low
  deriving DecidableEq, Repr

inductive SignalSource
  | MarketAVM
  | ThirdPartyEstimate
  | GenerativeEstimate
  deriving DecidableEq, Repr

structure PriceSignal where
  source : SignalSource
  amount : Int
  confidence : Option Confidence := none
  reasoning : Option String := none
  deriving DecidableEq, Repr

/-- Outcome of the injected async estimator call: a signal, a provider
failure, or a timeout. -/
inductive EstimatorOutcome
  | success (signal : PriceSignal)
  | failure
  | timeout
  deriving DecidableEq, Repr

structure ValuationResult where
  propertyId : String
  signals : List PriceSignal
  reconciledValue : Int
  reconciledConfidence : Confidence
  deltaFromMarket : Int
  isUndervalued : Bool
  deriving DecidableEq, Repr

/-- Modelled from the spec: the generative price signal is used only when it
is present (the estimator call succeeded) and carries confidence `high` or
`medium`; a failed or timed-out call, or a low-confidence or
confidence-less estimate, counts as "generative signal absent".
(`ValuationAggregator` is backend code absent from the repository's files;
this follows spec section 4.3.) -/
def usableGenerativeSignal : EstimatorOutcome → Option PriceSignal
  | .success s =>
      match s.confidence with
      | some .high => some s
      | some .medium => some s
      | _ => none
  | .failure => none
  | .timeout => none

/-- Modelled from the spec: `ValuationAggregator.aggregate` (spec section
4.3).  If a generative signal with confidence high or medium is present,
`reconciledValue` is the generative estimate and `reconciledConfidence` is
that signal's confidence; otherwise the market signal is used with
confidence `medium`.  `deltaFromMarket` is the reconciled value minus the
market amount and `isUndervalued` holds exactly when that delta is
positive.  The function is total: an estimator failure or timeout never
propagates. -/
def aggregate (propertyId : String) (marketSignal : PriceSignal)
    (thirdPartySignal : Option PriceSignal) (estimatorResult : EstimatorOutcome) :
    ValuationResult :=
  let gen := usableGenerativeSignal estimatorResult
  let reconciledValue :=
    match gen with
    | some g => g.amount
    | none => marketSignal.amount
  let reconciledConfidence :=
    match gen with
    | some g => g.confidence.getD Confidence.medium
    | none => Confidence.medium
  { propertyId := propertyId
    signals := marketSignal :: (thirdPartySignal.toList ++ gen.toList)
    reconciledValue := reconciledValue
    reconciledConfidence := reconciledConfidence
    deltaFromMarket := reconciledValue - marketSignal.amount
    isUndervalued := decide (reconciledValue - marketSignal.amount > 0) }

/-! ## Sample property data (the `PROPERTIES` constant) -/

structure Property where
  id : String
  address1 : String
  city : String
  state : String
  zip : String
  beds : Nat
  baths : Nat
  sqft : Nat
  lotSqft : Nat
  yearBuilt : Nat
  hasGarage : Bool
  type : String
  listPrice : Int
  estValue : Int
  photo : String
  photos : List String
  deriving DecidableEq, Repr

def PROPERTIES : List Property :=
  [{ id := "p_001", address1 := "123 Oak Street", city := "Austin", state := "TX",
     zip := "78701", beds := 3, baths := 2, sqft := 1850, lotSqft := 7200,
     yearBuilt := 2018, hasGarage := true, type := "Single Family",
     listPrice := 485000, estValue := 510000, photo := "hero-house.jpg",
     photos := ["hero-house.jpg", "houses-grid.jpg"] },
   { id := "p_002", address1 := "456 Pine Avenue", city := "Dallas", state := "TX",
     zip := "75201", beds := 4, baths := 3, sqft := 2200, lotSqft := 8500,
     yearBuilt := 2020, hasGarage := true, type := "Single Family",
     listPrice := 625000, estValue := 645000, photo := "houses-grid.jpg",
     photos := ["houses-grid.jpg", "investment-house.jpg"] },
   { id := "p_003", address1 := "789 Maple Drive", city := "Houston", state := "TX",
     zip := "77001", beds := 2, baths := 2, sqft := 1200, lotSqft := 5000,
     yearBuilt := 2015, hasGarage := false, type := "Condo",
     listPrice := 285000, estValue := 295000, photo := "investment-house.jpg",
     photos := ["investment-house.jpg", "hero-house.jpg"] }]

/-! ## Money formatting and the savings call-out

`formatMoney` embeds `Intl.NumberFormat('en-US', style currency, 0 fraction
digits)` on integer amounts: a dollar sign, thousands separated by commas,
a leading minus sign for negative amounts. -/

/-- Insert a comma after every three characters of a reversed digit list. -/
def groupRev : List Char → List Char
  | a :: b :: c :: d :: rest => a :: b :: c :: ',' :: groupRev (d :: rest)
  | l => l

def formatMoney (amount : Int) : String :=
  (if amount < 0 then "-" else "") ++ "$" ++
    String.mk ((groupRev (toString amount.natAbs).data.reverse).reverse)

/-- The CSS class of the savings pill in `renderProperties`
(`savings > 0 ? 'positive' : savings < 0 ? 'negative' : 'neutral'`). -/
def savingsClass (savings : Int) : String :=
  if savings > 0 then "positive" else if savings < 0 then "negative" else "neutral"

/-- The text of the savings line in `renderProperties`. -/
def savingsText (savings : Int) : String :=
  if savings > 0 then "You save " ++ formatMoney savings
  else if savings < 0 then formatMoney savings
  else "Fair value"

/-- The text `renderPropertyDetails` writes into the savings pill. -/
def savingsPillText (savings : Int) : String :=
  if savings > 0 then "You save " ++ formatMoney savings
  else if savings < 0 then formatMoney savings
  else "Fair value"

/-- The class name `renderPropertyDetails` assigns to the savings pill. -/
def savingsPillClass (savings : Int) : String :=
  if savings > 0 then "savings-pill positive"
  else if savings < 0 then "savings-pill negative"
  else "savings-pill neutral"

/-! ## Page navigation (`pages`, `showPage`, `showPropertyDetails`) -/

def pages : List (String × String) :=
  [("home", "home-page"),
   ("demo", "demo-page"),
   ("marketplace", "marketplace-page"),
   ("property-details", "property-details-page"),
   ("pricing", "pricing-page"),
   ("signin", "signin-page"),
   ("signup", "signup-page"),
   ("analyzer", "analyzer-page"),
   ("chat", "chat-page"),
   ("agent-connect", "agent-connect-page")]

def pagesLookup (pageId : String) : Option String :=
  (pages.find? (fun e => e.1 = pageId)).map Prod.snd

/-- The page-navigation state: which page-element ids exist in the document,
which `.page` elements are currently displayed, and the `currentPage`
global. -/
structure NavState where
  domIds : List String
  visiblePages : List String
  currentPage : String
  deriving DecidableEq, Repr

/-- `showPage`: hide every `.page` element, then display the element whose id
is `pages[pageId] || pages['home']` (when such an element exists in the
document) and record `currentPage = pageId`. -/
def showPage (st : NavState) (pageId : String) : NavState :=
  let hiddenSt := { st with visiblePages := [] }
  match (pagesLookup pageId).orElse (fun _ => pagesLookup "home") with
  | some targetPageId =>
      if targetPageId ∈ st.domIds then
        { hiddenSt with visiblePages := [targetPageId], currentPage := pageId }
      else hiddenSt
  | none => hiddenSt

/-- The script's page-level state: navigation plus the `selectedProperty`
global and the property whose details panel was last rendered. -/
structure AppState where
  nav : NavState
  selectedProperty : Option Property
  renderedDetails : Option Property
  deriving DecidableEq, Repr

/-- `showPropertyDetails`: look the id up in `PROPERTIES`; when absent, log
and return (no state change); when found, set `selectedProperty`, navigate
to the property-details page and render the details. -/
def showPropertyDetails (st : AppState) (propertyId : String) : AppState :=
  match PROPERTIES.find? (fun p => p.id = propertyId) with
  | none => st
  | some property =>
      { st with
        selectedProperty := some property
        nav := showPage st.nav "property-details"
        renderedDetails := some property }

/-! ## The demo search form

`jsTrim` embeds JS `String.prototype.trim` (strip leading and trailing
whitespace); `parseIntOr0` embeds `parseInt(field.value) || 0`: JS
`parseInt` trims, reads an optional sign and then a maximal run of leading
digits, giving `NaN` when no digit follows; `|| 0` turns `NaN` (and `0`
itself) into `0`. -/

def jsTrim (s : String) : String :=
  String.mk (((s.data.dropWhile Char.isWhitespace).reverse.dropWhile Char.isWhitespace).reverse)

def digitsVal (cs : List Char) : Nat :=
  cs.foldl (fun acc c => acc * 10 + (c.toNat - '0'.toNat)) 0

def jsParseInt (s : String) : Option Int :=
  let core : List Char → Option Nat := fun cs =>
    let ds := cs.takeWhile Char.isDigit
    if ds.isEmpty then none else some (digitsVal ds)
  match (jsTrim s).data with
  | '-' :: rest => (core rest).map (fun n => -(n : Int))
  | '+' :: rest => (core rest).map (fun n => (n : Int))
  | cs => (core cs).map (fun n => (n : Int))

def parseIntOr0 (s : String) : Int := (jsParseInt s).getD 0

/-- The demo page's form inputs: the custom-budget toggle, the two custom
price inputs, the two price selects, the location input and the five
strategy checkboxes. -/
structure DemoForm where
  customBudgetToggle : Bool
  customMinPrice : String
  customMaxPrice : String
  minPrice : String
  maxPrice : String
  demoLocation : String
  primaryResidence : Bool
  fixFlip : Bool
  rentalProperty : Bool
  multiFamily : Bool
  quickDeals : Bool
  deriving DecidableEq, Repr

/-- `validateBudgetRange` (a change/blur listener): parse the active pair of
bounds, warn and return `false` when both are positive and `min >= max`,
else return `true`.  It corrects nothing and its result is never consulted
by the search path. -/
def validateBudgetRange (f : DemoForm) : Bool :=
  let isCustom := f.customBudgetToggle
  let minVal := if isCustom then parseIntOr0 f.customMinPrice else parseIntOr0 f.minPrice
  let maxVal := if isCustom then parseIntOr0 f.customMaxPrice else parseIntOr0 f.maxPrice
  if minVal > 0 ∧ maxVal > 0 ∧ minVal ≥ maxVal then false else true

/-- `getSelectedStrategies`: one fixed tag per checked checkbox, in the
source's push order. -/
def getSelectedStrategies (f : DemoForm) : List String :=
  (if f.primaryResidence then ["primary-residence"] else []) ++
    (if f.fixFlip then ["fix-flip"] else []) ++
      (if f.rentalProperty then ["rental-property"] else []) ++
        (if f.multiFamily then ["multi-family"] else []) ++
          (if f.quickDeals then ["quick-deals"] else [])

/-- The five category tags the demo form can produce. -/
def strategyVocabulary : List String :=
  ["primary-residence", "fix-flip", "rental-property", "multi-family", "quick-deals"]

structure BudgetRange where
  min : Int
  max : Int
  customBudget : Bool
  deriving DecidableEq, Repr

structure SearchFormData where
  location : String
  propertyTypes : List String
  budget : BudgetRange
  deriving DecidableEq, Repr

/-- `getSearchFormData`: read the active bound pair with `parseInt(x) || 0`,
the location and the checked strategies, and package them unchanged. -/
def getSearchFormData (f : DemoForm) : SearchFormData :=
  let minPrice :=
    if f.customBudgetToggle then parseIntOr0 f.customMinPrice else parseIntOr0 f.minPrice
  let maxPrice :=
    if f.customBudgetToggle then parseIntOr0 f.customMaxPrice else parseIntOr0 f.maxPrice
  { location := f.demoLocation
    propertyTypes := getSelectedStrategies f
    budget := { min := minPrice, max := maxPrice, customBudget := f.customBudgetToggle } }

/-- `validateSearchData`: alert and refuse when the location is missing or
whitespace, or when no property type is selected. -/
def validateSearchData (d : SearchFormData) : Bool :=
  if d.location = "" ∨ jsTrim d.location = "" then false
  else if d.propertyTypes.length = 0 then false
  else true

/-- `handleSearch` reaches `startChatbotWithFormData` (issues the search
request) exactly when `validateSearchData` accepts the collected form
data; on a validation failure it logs and returns. -/
def handleSearchIssuesRequest (f : DemoForm) : Bool :=
  validateSearchData (getSearchFormData f)

/-- The `frontendData` object `startChatbotWithFormData` posts to
`/chat/start`: `budget_min: searchData.budget.min || null` and likewise for
the max bound. -/
structure FrontendData where
  location : String
  property_types : List String
  budget_min : Option Int
  budget_max : Option Int
  deriving DecidableEq, Repr

/-- `n || null` on a JS number: `0` (and only `0`, for the integers that
reach it) is falsy and becomes `null`. -/
def jsOrNull (n : Int) : Option Int := if n = 0 then none else some n

def buildFrontendData (d : SearchFormData) : FrontendData :=
  { location := d.location
    property_types := d.propertyTypes
    budget_min := jsOrNull d.budget.min
    budget_max := jsOrNull d.budget.max }

/-! ## The chatbot widget's send path (`ChatbotManager`) -/

/-- The fields of `ChatbotManager` that govern the send path: the typing
flag, plus (for the verification) a count of message requests issued and
not yet answered. -/
structure ChatState where
  isTyping : Bool
  inflightRequests : Nat
  deriving DecidableEq, Repr

/-- `ChatbotManager.sendMessage`: trim the input; when it is empty or a
response is still pending (`isTyping`), return without issuing a request;
otherwise show the typing indicator (set before the fetch suspends) and
issue the request. -/
def sendMessage (st : ChatState) (inputValue : String) : ChatState :=
  let message := jsTrim inputValue
  if message = "" ∨ st.isTyping then st
  else { isTyping := true, inflightRequests := st.inflightRequests + 1 }

inductive ChatEvent
  | userSend (inputValue : String)
  | responseArrives
  deriving DecidableEq, Repr

/-- One step of the widget: a user pressing send runs `sendMessage`; the
pending fetch resolving (success or error alike) runs `hideTyping` and
completes the request.  A response event with nothing in flight changes
nothing. -/
def chatStep (st : ChatState) : ChatEvent → ChatState
  | .userSend v => sendMessage st v
  | .responseArrives =>
      if st.inflightRequests = 0 then st
      else { isTyping := false, inflightRequests := st.inflightRequests - 1 }

def initialChatState : ChatState := { isTyping := false, inflightRequests := 0 }

def chatRun (events : List ChatEvent) : ChatState :=
  events.foldl chatStep initialChatState

/-! ## `ChatbotManager.formatMessage`

The reply formatter runs three global regex replaces over the reply text —
`\n` to `<br>`, lazy `**x**` to `<strong>x</strong>`, lazy `*x*` to
`<em>x</em>` — and then, when the reply contains the property-listing
markers, scans the result with `propertyPattern` to rebuild property
cards from the text.

The two markdown replaces are embedded as a JS global lazy-quantifier
replace behaves: repeatedly take the first `**` (resp. `*`) of the
remaining text, pair it with the next one after it, replace, and continue
after the closing pair; when no closing token exists there is no further
match.  The lazy group `.*?` is modelled as matching every character: the
`\n` a JS dot refuses has already been rewritten to `<br>` by the
preceding replace, and the remaining JS line terminators (`\r`, U+2028,
U+2029), which would block a JS match between a star pair, are not
modelled as blockers. -/

def brRep : List Char → List Char
  | [] => []
  | c :: rest =>
      if c = '\n' then '<' :: 'b' :: 'r' :: '>' :: brRep rest else c :: brRep rest

/-- Split at the first `**`: `some (before, after)` with
`s = before ++ '*' :: '*' :: after`, `before` free of `**`. -/
def splitDouble : List Char → Option (List Char × List Char)
  | [] => none
  | c :: rest =>
      if c = '*' ∧ rest.head? = some '*' then some ([], rest.tail)
      else (splitDouble rest).map (fun p => (c :: p.1, p.2))

/-- Split at the first `*`. -/
def splitSingle : List Char → Option (List Char × List Char)
  | [] => none
  | c :: rest =>
      if c = '*' then some ([], rest)
      else (splitSingle rest).map (fun p => (c :: p.1, p.2))

theorem splitDouble_length {s a t : List Char} (h : splitDouble s = some (a, t)) :
    t.length < s.length := by
  induction s generalizing a t with
  | nil => simp [splitDouble] at h
  | cons c rest ih =>
      rw [splitDouble] at h
      split at h
      · rename_i hc
        obtain ⟨rfl, rfl⟩ : ([] : List Char) = a ∧ rest.tail = t := by simpa using h
        cases rest with
        | nil => simp at hc
        | cons r rs => simp only [List.tail_cons, List.length_cons]; omega
      · simp only [Option.map_eq_some'] at h
        obtain ⟨⟨a', t'⟩, hsp, heq⟩ := h
        obtain ⟨rfl, rfl⟩ : c :: a' = a ∧ t' = t := by simpa using heq
        have := ih hsp
        simp only [List.length_cons]
        omega

theorem splitSingle_length {s a t : List Char} (h : splitSingle s = some (a, t)) :
    t.length < s.length := by
  induction s generalizing a t with
  | nil => simp [splitSingle] at h
  | cons c rest ih =>
      rw [splitSingle] at h
      split at h
      · obtain ⟨rfl, rfl⟩ : ([] : List Char) = a ∧ rest = t := by simpa using h
        simp
      · simp only [Option.map_eq_some'] at h
        obtain ⟨⟨a', t'⟩, hsp, heq⟩ := h
        obtain ⟨rfl, rfl⟩ : c :: a' = a ∧ t' = t := by simpa using heq
        have := ih hsp
        simp only [List.length_cons]
        omega

/-- One step of the global `/\*\*(.*?)\*\*/g` replace: the first `**` paired
with the next `**` after it (`none` when the remaining text has no such
pair, in which case the regex can no longer match anywhere). -/
def findStrongPair (s : List Char) : Option (List Char × List Char × List Char) :=
  match splitDouble s with
  | none => none
  | some (a, t) =>
      match splitDouble t with
      | none => none
      | some (m, r) => some (a, m, r)

theorem findStrongPair_length {s a m r : List Char}
    (h : findStrongPair s = some (a, m, r)) : r.length < s.length := by
  unfold findStrongPair at h
  split at h
  · exact absurd h (by simp)
  · rename_i x t h1
    split at h
    · exact absurd h (by simp)
    · rename_i m' r' h2
      obtain ⟨rfl, rfl, rfl⟩ : x = a ∧ m' = m ∧ r' = r := by simpa using h
      exact lt_trans (splitDouble_length h2) (splitDouble_length h1)

/-- One step of the global `/\*(.*?)\*/g` replace. -/
def findEmPair (s : List Char) : Option (List Char × List Char × List Char) :=
  match splitSingle s with
  | none => none
  | some (a, t) =>
      match splitSingle t with
      | none => none
      | some (m, r) => some (a, m, r)

theorem findEmPair_length {s a m r : List Char}
    (h : findEmPair s = some (a, m, r)) : r.length < s.length := by
  unfold findEmPair at h
  split at h
  · exact absurd h (by simp)
  · rename_i x t h1
    split at h
    · exact absurd h (by simp)
    · rename_i m' r' h2
      obtain ⟨rfl, rfl, rfl⟩ : x = a ∧ m' = m ∧ r' = r := by simpa using h
      exact lt_trans (splitSingle_length h2) (splitSingle_length h1)

/-- `content.replace(/\*\*(.*?)\*\*/g, '<strong>$1</strong>')`. -/
def strongRep (s : List Char) : List Char :=
  match h : findStrongPair s with
  | none => s
  | some (a, m, r) => a ++ "<strong>".data ++ m ++ "</strong>".data ++ strongRep r
termination_by s.length
decreasing_by exact findStrongPair_length h

/-- `content.replace(/\*(.*?)\*/g, '<em>$1</em>')`. -/
def emRep (s : List Char) : List Char :=
  match h : findEmPair s with
  | none => s
  | some (a, m, r) => a ++ "<em>".data ++ m ++ "</em>".data ++ emRep r
termination_by s.length
decreasing_by exact findEmPair_length h

/-- The `formatted` value of `formatMessage`: line breaks to `<br>`, bold
markdown to `<strong>`, italics to `<em>`, in the source's order. -/
def markdownFormat (content : List Char) : List Char :=
  emRep (strongRep (brRep content))

/-- JS `String.prototype.includes` on character lists. -/
def containsSeq (pat : List Char) : List Char → Bool
  | [] => pat.isEmpty
  | s@(_ :: rest) => pat.isPrefixOf s || containsSeq pat rest

/-- The guard of the property-listing branch:
`content.includes('🏠 **Property') && content.includes('📍')`.  When it
holds, `formatMessage` runs `propertyPattern` (a regex) over the formatted
reply text to rebuild structured property cards from it. -/
def attemptsCardScrape (content : String) : Bool :=
  containsSeq "🏠 **Property".data content.data && containsSeq "📍".data content.data

/-- One property card as captured by `propertyPattern`'s groups. -/
structure ChatPropertyCard where
  number : List Char
  address : List Char
  aiPrice : Option (List Char) := none
  listedPrice : Option (List Char) := none
  details : Option (List Char) := none
  yearBuilt : Option (List Char) := none
  aiConfidence : Option (List Char) := none
  deriving DecidableEq, Repr

/-- Strip a literal from the front of the text. -/
def stripLit : List Char → List Char → Option (List Char)
  | [], s => some s
  | _ :: _, [] => none
  | p :: ps, c :: cs => if p = c then stripLit ps cs else none

/-- `(\d+)`: a maximal nonempty run of digits. -/
def takeDigits1 (s : List Char) : Option (List Char × List Char) :=
  if (s.takeWhile Char.isDigit).isEmpty then none
  else some (s.takeWhile Char.isDigit, s.dropWhile Char.isDigit)

/-- `([^<]+)`: a maximal nonempty run of characters other than `<`. -/
def takeNonLt1 (s : List Char) : Option (List Char × List Char) :=
  if (s.takeWhile (fun c => ¬ c = '<')).isEmpty then none
  else some (s.takeWhile (fun c => ¬ c = '<'), s.dropWhile (fun c => ¬ c = '<'))

/-- An optional group `(?:PRE([^<]+))?`: capture when the literal prefix and
a nonempty `[^<]+` both match here, else consume nothing. -/
def parseOptGroup (pre s : List Char) : Option (List Char) × List Char :=
  match stripLit pre s with
  | none => (none, s)
  | some s1 =>
      match takeNonLt1 s1 with
      | none => (none, s)
      | some (cap, s2) => (some cap, s2)

/-- The group `(?:<br>[🎯📊📈💰] \*\*Fair Value \(AI\)\*\*: ([^<]+))?`. -/
def parseFairValueGroup (s : List Char) : Option (List Char) × List Char :=
  match stripLit "<br>".data s with
  | none => (none, s)
  | some s1 =>
      match s1 with
      | [] => (none, s)
      | c :: s2 =>
          if c ∈ ['🎯', '📊', '📈', '💰'] then
            match stripLit " **Fair Value (AI)**: ".data s2 with
            | none => (none, s)
            | some s3 =>
                match takeNonLt1 s3 with
                | none => (none, s)
                | some (cap, s4) => (some cap, s4)
          else (none, s)

/-- The literal `🏠 \*\*Property ` opening `propertyPattern`. -/
def cardHeadMark : List Char := "🏠 **Property ".data

/-- The literal `\*\*<br>📍 ` between the number and address groups. -/
def cardMidMark : List Char := "**<br>📍 ".data

/-- The Listed Price group's prefix (the source contains a literal U+FFFD
replacement character followed by a variation selector). -/
def listedPriceMark : List Char := "<br>�️ **Listed Price**: ".data

/-- The details group's prefix (a literal U+FFFD then 🏡). -/
def detailsMark : List Char := "<br>�🏡 ".data

def builtMark : List Char := "<br>📅 Built: ".data

def confMark : List Char := "<br>🤖 ".data

/-- `propertyPattern` matched at the current position: the mandatory part
`🏠 \*\*Property (\d+)\*\*<br>📍 ([^<]+)` followed by the five optional
groups. -/
def matchCardAt (s : List Char) : Option (ChatPropertyCard × List Char) :=
  match stripLit cardHeadMark s with
  | none => none
  | some s1 =>
      match takeDigits1 s1 with
      | none => none
      | some (num, s2) =>
          match stripLit cardMidMark s2 with
          | none => none
          | some s3 =>
              match takeNonLt1 s3 with
              | none => none
              | some (addr, s4) =>
                  let g1 := parseFairValueGroup s4
                  let g2 := parseOptGroup listedPriceMark g1.2
                  let g3 := parseOptGroup detailsMark g2.2
                  let g4 := parseOptGroup builtMark g3.2
                  let g5 := parseOptGroup confMark g4.2
                  some ({ number := num, address := addr, aiPrice := g1.1,
                          listedPrice := g2.1, details := g3.1, yearBuilt := g4.1,
                          aiConfidence := g5.1 }, g5.2)

theorem stripLit_some_eq {p s t : List Char} (h : stripLit p s = some t) :
    s = p ++ t := by
  induction p generalizing s with
  | nil => simpa [stripLit] using h
  | cons pc ps ih =>
      cases s with
      | nil => simp [stripLit] at h
      | cons c cs =>
          rw [stripLit] at h
          split at h
          · rename_i hpc
            rw [hpc, List.cons_append, ih h]
          · exact absurd h (by simp)

theorem takeDigits1_some_eq {s d t : List Char} (h : takeDigits1 s = some (d, t)) :
    s = d ++ t ∧ d ≠ [] := by
  unfold takeDigits1 at h
  split at h
  · exact absurd h (by simp)
  · rename_i hne
    obtain ⟨rfl, rfl⟩ : s.takeWhile Char.isDigit = d ∧ s.dropWhile Char.isDigit = t := by
      simpa [Prod.ext_iff] using h
    refine ⟨(List.takeWhile_append_dropWhile _ _).symm, ?_⟩
    simpa [List.isEmpty_iff] using hne

theorem takeNonLt1_some_eq {s d t : List Char} (h : takeNonLt1 s = some (d, t)) :
    s = d ++ t ∧ d ≠ [] := by
  unfold takeNonLt1 at h
  split at h
  · exact absurd h (by simp)
  · rename_i hne
    obtain ⟨rfl, rfl⟩ :
        s.takeWhile (fun c => ¬ c = '<') = d ∧ s.dropWhile (fun c => ¬ c = '<') = t := by
      simpa [Prod.ext_iff] using h
    refine ⟨(List.takeWhile_append_dropWhile _ _).symm, ?_⟩
    simpa [List.isEmpty_iff] using hne

theorem parseOptGroup_length (pre s : List Char) :
    (parseOptGroup pre s).2.length ≤ s.length := by
  unfold parseOptGroup
  split
  · simp
  · rename_i s1 h1
    split
    · simp
    · rename_i cap s2 h2
      have e1 := stripLit_some_eq h1
      have e2 := (takeNonLt1_some_eq h2).1
      simp only []
      subst e1
      rw [e2]
      simp only [List.length_append]
      omega

theorem parseFairValueGroup_length (s : List Char) :
    (parseFairValueGroup s).2.length ≤ s.length := by
  unfold parseFairValueGroup
  split
  · simp
  · rename_i s1 h1
    split
    · simp
    · rename_i c s2
      split
      · split
        · simp
        · rename_i s3 h3
          split
          · simp
          · rename_i cap s4 h4
            have e1 := stripLit_some_eq h1
            have e3 := stripLit_some_eq h3
            have e4 := (takeNonLt1_some_eq h4).1
            simp only []
            subst e1
            rw [e3, e4]
            simp only [List.length_append, List.length_cons]
            omega
      · simp

theorem matchCardAt_length {s : List Char} {card : ChatPropertyCard} {r : List Char}
    (h : matchCardAt s = some (card, r)) : r.length < s.length := by
  unfold matchCardAt at h
  split at h
  · exact absurd h (by simp)
  · rename_i s1 h1
    split at h
    · exact absurd h (by simp)
    · rename_i num s2 h2
      split at h
      · exact absurd h (by simp)
      · rename_i s3 h3
        split at h
        · exact absurd h (by simp)
        · rename_i addr s4 h4
          simp only [Option.some.injEq, Prod.mk.injEq] at h
          have hr := h.2
          have e1 := stripLit_some_eq h1
          have e2 := (takeDigits1_some_eq h2).1
          have e3 := stripLit_some_eq h3
          have e4 := (takeNonLt1_some_eq h4).1
          have l5 := parseFairValueGroup_length s4
          have l6 := parseOptGroup_length listedPriceMark (parseFairValueGroup s4).2
          have l7 := parseOptGroup_length detailsMark
            (parseOptGroup listedPriceMark (parseFairValueGroup s4).2).2
          have l8 := parseOptGroup_length builtMark
            (parseOptGroup detailsMark
              (parseOptGroup listedPriceMark (parseFairValueGroup s4).2).2).2
          have l9 := parseOptGroup_length confMark
            (parseOptGroup builtMark
              (parseOptGroup detailsMark
                (parseOptGroup listedPriceMark (parseFairValueGroup s4).2).2).2).2
          have hler : r.length ≤ s4.length := by
            rw [← hr]; omega
          have hpos : 0 < cardHeadMark.length := by decide
          rw [e1, e2, e3, e4]
          simp only [List.length_append]
          omega

/-- The `while ((match = propertyPattern.exec(formatted)) !== null)` loop: a
`g`-flagged exec scan, trying each position left to right and continuing
after each match. -/
def scanCards (s : List Char) : List ChatPropertyCard :=
  match s with
  | [] => []
  | c :: rest =>
      match h : matchCardAt (c :: rest) with
      | some (card, r) => card :: scanCards r
      | none => scanCards rest
termination_by s.length
decreasing_by
  · exact matchCardAt_length h
  · simp

/-- `/^(.*?)🏠 \*\*Property/s` applied to the raw content: the text before
the first occurrence of the marker, when the marker occurs. -/
def splitAtLit (pat : List Char) : List Char → Option (List Char × List Char)
  | [] => if pat.isEmpty then some ([], []) else none
  | s@(c :: rest) =>
      if pat.isPrefixOf s then some ([], s.drop pat.length)
      else (splitAtLit pat rest).map (fun p => (c :: p.1, p.2))

/-- `/🤖 [^<]+<br><br>(.*)$/s` applied to the raw content: scan for the
first position where `🤖 `, a nonempty `[^<]+` run and `<br><br>` match,
and capture everything after. -/
def findOutro : List Char → Option (List Char)
  | [] => none
  | s@(_ :: rest) =>
      match stripLit "🤖 ".data s with
      | some s1 =>
          match takeNonLt1 s1 with
          | some (_, s2) =>
              match stripLit "<br><br>".data s2 with
              | some tail => some tail
              | none => findOutro rest
          | none => findOutro rest
      | none => findOutro rest

/-- The per-card template of the scraping branch (the template literal's
layout indentation is not reproduced). -/
def cardHtml (card : ChatPropertyCard) : List Char :=
  "<div class=\"property-card-chat\"><div class=\"property-header\">".data
    ++ "<span class=\"property-number\">#".data ++ card.number ++ "</span>".data
    ++ "<div class=\"property-prices\">".data
    ++ (match card.aiPrice with
        | some p =>
            "<div class=\"ai-price\"><span class=\"price-label\">AI Fair Value:</span> <span class=\"price-value\">".data
              ++ p ++ "</span></div>".data
        | none => [])
    ++ (match card.listedPrice with
        | some p =>
            "<div class=\"listed-price\"><span class=\"price-label\">Listed Price:</span> <span class=\"price-value\">".data
              ++ p ++ "</span></div>".data
        | none => [])
    ++ "</div></div><div class=\"property-address\">".data ++ card.address ++ "</div>".data
    ++ (match card.details with
        | some d => "<div class=\"property-details\">".data ++ d ++ "</div>".data
        | none => [])
    ++ (match card.yearBuilt with
        | some y => "<div class=\"property-year\">Built: ".data ++ y ++ "</div>".data
        | none => [])
    ++ (match card.aiConfidence with
        | some c => "<div class=\"ai-confidence\">".data ++ c ++ "</div>".data
        | none => [])
    ++ "</div>".data

/-- The `propertyHtml` string assembled by the scraping branch: wrapper,
intro (when the intro regex matches the content), the cards, outro (when
the outro regex matches), closing tag. -/
def renderPropertyResults (content : List Char) (cards : List ChatPropertyCard) :
    List Char :=
  "<div class=\"property-results\">".data
    ++ (match splitAtLit "🏠 **Property".data content with
        | some (pre, _) =>
            "<div class=\"property-intro\">".data ++ brRep pre ++ "</div>".data
        | none => [])
    ++ (cards.map cardHtml).flatten
    ++ (match findOutro content with
        | some tail =>
            "<div class=\"property-outro\">".data ++ brRep tail ++ "</div>".data
        | none => [])
    ++ "</div>".data

/-- `ChatbotManager.formatMessage`: format the markdown; when the
property-listing markers are present, scan the formatted text with
`propertyPattern` and, if any card was scraped, return the rebuilt
card markup, else return the formatted text. -/
def formatMessage (content : String) : String :=
  let formatted := markdownFormat content.data
  if attemptsCardScrape content then
    let cards := scanCards formatted
    if cards.isEmpty then String.mk formatted
    else String.mk (renderPropertyResults content.data cards)
  else String.mk formatted

/-! ## Star-pair bookkeeping for the markdown replaces

`HasDD s` says the token `**` occurs somewhere in `s`; `TwoDD s` says two
disjoint `**` occurrences do.  The global lazy `**` replace leaves no two
disjoint `**` occurrences in its output, the `*` replace preserves that,
and any `propertyPattern` match requires two disjoint `**` occurrences —
which is why the card scrape can never fire on the formatted text. -/

def HasDD (s : List Char) : Prop := ∃ a b, s = a ++ '*' :: '*' :: b

def TwoDD (s : List Char) : Prop :=
  ∃ a m r, s = a ++ '*' :: '*' :: (m ++ '*' :: '*' :: r)

theorem hasDD_cons {s : List Char} (c : Char) (h : HasDD s) : HasDD (c :: s) := by
  obtain ⟨a, b, rfl⟩ := h
  exact ⟨c :: a, b, rfl⟩

theorem hasDD_append_left {s : List Char} (u : List Char) (h : HasDD s) :
    HasDD (u ++ s) := by
  obtain ⟨a, b, rfl⟩ := h
  exact ⟨u ++ a, b, by rw [List.append_assoc]⟩

theorem hasDD_append_right {s : List Char} (u : List Char) (h : HasDD s) :
    HasDD (s ++ u) := by
  obtain ⟨a, b, rfl⟩ := h
  exact ⟨a, b ++ u, by simp⟩

theorem twoDD_cons {s : List Char} (c : Char) (h : TwoDD s) : TwoDD (c :: s) := by
  obtain ⟨a, m, r, rfl⟩ := h
  exact ⟨c :: a, m, r, rfl⟩

theorem twoDD_append_left {s : List Char} (u : List Char) (h : TwoDD s) :
    TwoDD (u ++ s) := by
  obtain ⟨a, m, r, rfl⟩ := h
  exact ⟨u ++ a, m, r, by rw [List.append_assoc]⟩

theorem twoDD_hasDD {s : List Char} (h : TwoDD s) : HasDD s := by
  obtain ⟨a, m, r, rfl⟩ := h
  exact ⟨a, m ++ '*' :: '*' :: r, rfl⟩

theorem not_hasDD_nil : ¬ HasDD ([] : List Char) := by
  rintro ⟨a, b, h⟩
  simp at h

theorem not_hasDD_singleton (c : Char) : ¬ HasDD [c] := by
  rintro ⟨a, b, h⟩
  rcases a with _ | ⟨x, a'⟩ <;> simp at h

theorem hasDD_iff_splitDouble {s : List Char} :
    HasDD s ↔ (splitDouble s).isSome = true := by
  induction s with
  | nil =>
      constructor
      · exact fun h => absurd h not_hasDD_nil
      · intro h; simp [splitDouble] at h
  | cons c rest ih =>
      rw [splitDouble]
      by_cases hc : c = '*' ∧ rest.head? = some '*'
      · rw [if_pos hc]
        simp only [Option.isSome_some, iff_true]
        obtain ⟨rfl, hh⟩ := hc
        cases rest with
        | nil => simp at hh
        | cons r rs =>
            obtain rfl : r = '*' := by simpa using hh
            exact ⟨[], rs, rfl⟩
      · rw [if_neg hc]
        simp only [Option.isSome_map']
        rw [← ih]
        constructor
        · rintro ⟨a, b, hab⟩
          rcases a with _ | ⟨x, a'⟩
          · simp only [List.nil_append] at hab
            injection hab with h1 h2
            subst h1
            exact absurd ⟨rfl, by rw [h2]; rfl⟩ hc
          · simp only [List.cons_append] at hab
            injection hab with h1 h2
            exact ⟨a', b, h2⟩
        · exact fun h => hasDD_cons c h

theorem not_hasDD_of_none {s : List Char} (h : splitDouble s = none) : ¬ HasDD s := by
  rw [hasDD_iff_splitDouble, h]
  simp

theorem splitDouble_some_parts {s a t : List Char} (h : splitDouble s = some (a, t)) :
    s = a ++ '*' :: '*' :: t ∧ ¬ HasDD (a ++ ['*']) := by
  induction s generalizing a t with
  | nil => simp [splitDouble] at h
  | cons c rest ih =>
      rw [splitDouble] at h
      split at h
      · rename_i hc
        obtain ⟨rfl, rfl⟩ : ([] : List Char) = a ∧ rest.tail = t := by simpa using h
        obtain ⟨rfl, hh⟩ := hc
        cases rest with
        | nil => simp at hh
        | cons r rs =>
            obtain rfl : r = '*' := by simpa using hh
            exact ⟨rfl, not_hasDD_singleton '*'⟩
      · rename_i hc
        simp only [Option.map_eq_some'] at h
        obtain ⟨⟨a', t'⟩, hsp, heq⟩ := h
        obtain ⟨rfl, rfl⟩ : c :: a' = a ∧ t' = t := by simpa using heq
        obtain ⟨he, hno⟩ := ih hsp
        refine ⟨by rw [List.cons_append, ← he], ?_⟩
        rintro ⟨x, b, hx⟩
        rcases x with _ | ⟨z, x'⟩
        · rw [List.cons_append] at hx
          injection hx with h1 h2
          subst h1
          rcases a' with _ | ⟨y, a''⟩
          · obtain rfl : rest = '*' :: '*' :: t' := by simpa using he
            exact hc ⟨rfl, rfl⟩
          · rw [List.cons_append] at h2
            injection h2 with h3 h4
            subst h3
            have : rest.head? = some '*' := by rw [he]; rfl
            exact hc ⟨rfl, this⟩
        · rw [List.cons_append] at hx
          injection hx with h1 h2
          exact hno ⟨x', b, h2⟩

theorem splitSingle_some_parts {s a t : List Char} (h : splitSingle s = some (a, t)) :
    s = a ++ '*' :: t ∧ '*' ∉ a := by
  induction s generalizing a t with
  | nil => simp [splitSingle] at h
  | cons c rest ih =>
      rw [splitSingle] at h
      split at h
      · rename_i hc
        obtain ⟨rfl, rfl⟩ : ([] : List Char) = a ∧ rest = t := by simpa using h
        subst hc
        exact ⟨rfl, by simp⟩
      · rename_i hc
        simp only [Option.map_eq_some'] at h
        obtain ⟨⟨a', t'⟩, hsp, heq⟩ := h
        obtain ⟨rfl, rfl⟩ : c :: a' = a ∧ t' = t := by simpa using heq
        obtain ⟨he, hno⟩ := ih hsp
        refine ⟨by rw [List.cons_append, ← he], ?_⟩
        simp only [List.mem_cons, not_or]
        exact ⟨fun h => hc h.symm, hno⟩

theorem star_free_noDDx {u : List Char} (hu : '*' ∉ u) : ¬ HasDD (u ++ ['*']) := by
  induction u with
  | nil => exact not_hasDD_singleton '*'
  | cons c u' ih =>
      rintro ⟨a, b, hab⟩
      rcases a with _ | ⟨x, a'⟩
      · rw [List.cons_append] at hab
        injection hab with h1 h2
        exact hu (h1 ▸ List.mem_cons_self c u')
      · rw [List.cons_append] at hab
        injection hab with h1 h2
        exact ih (fun hm => hu (List.mem_cons_of_mem c hm)) ⟨a', b, h2⟩

theorem hasDD_append_cases {u v : List Char} (h : HasDD (u ++ v)) :
    HasDD (u ++ v.take 1) ∨ HasDD v := by
  induction u with
  | nil => exact Or.inr (by simpa using h)
  | cons c u' ih =>
      obtain ⟨a, b, hab⟩ := h
      rcases a with _ | ⟨x, a'⟩
      · rw [List.cons_append] at hab
        injection hab with h1 h2
        subst h1
        rcases u' with _ | ⟨y, u''⟩
        · simp only [List.nil_append] at h2
          subst h2
          exact Or.inl ⟨[], [], by simp⟩
        · rw [List.cons_append] at h2
          injection h2 with h3 h4
          subst h3
          exact Or.inl ⟨[], u'' ++ v.take 1, by simp⟩
      · rw [List.cons_append] at hab
        injection hab with h1 h2
        rcases ih ⟨a', b, h2⟩ with hl | hr
        · exact Or.inl (hasDD_cons c hl)
        · exact Or.inr hr

theorem hasDD_last_swap {u : List Char} {c : Char} (hc : ¬ c = '*')
    (h : HasDD (u ++ [c])) : HasDD (u ++ ['*']) := by
  induction u with
  | nil => exact absurd h (not_hasDD_singleton c)
  | cons d u' ih =>
      obtain ⟨a, b, hab⟩ := h
      rcases a with _ | ⟨x, a'⟩
      · rw [List.cons_append] at hab
        injection hab with h1 h2
        subst h1
        rcases u' with _ | ⟨y, u''⟩
        · simp only [List.nil_append] at h2
          injection h2 with hc2 hb2
          exact absurd hc2 hc
        · rw [List.cons_append] at h2
          injection h2 with h3 h4
          subst h3
          exact ⟨[], u'' ++ ['*'], by simp⟩
      · rw [List.cons_append] at hab
        injection hab with h1 h2
        exact hasDD_cons d (ih ⟨a', b, h2⟩)

theorem noDDx_append {u v : List Char} (hu : ¬ HasDD (u ++ ['*']))
    (hv : ¬ HasDD (v ++ ['*'])) : ¬ HasDD ((u ++ v) ++ ['*']) := by
  intro h
  rw [List.append_assoc] at h
  rcases hasDD_append_cases h with hl | hr
  · rcases v with _ | ⟨h0, v'⟩
    · exact hu (by simpa using hl)
    · simp only [List.cons_append, List.take_succ_cons, List.take_zero] at hl
      by_cases h0s : h0 = '*'
      · exact hu (h0s ▸ hl)
      · exact hu (hasDD_last_swap h0s hl)
  · exact hv hr

theorem twoDD_drop_front {P Q : List Char} (hP : ¬ HasDD (P ++ ['*']))
    (h : TwoDD (P ++ Q)) : TwoDD Q := by
  induction P with
  | nil => simpa using h
  | cons c P' ih =>
      obtain ⟨x, m, r, hx⟩ := h
      rcases x with _ | ⟨z, x'⟩
      · rw [List.cons_append] at hx
        injection hx with h1 h2
        subst h1
        rcases P' with _ | ⟨y, P''⟩
        · exact absurd ⟨[], [], rfl⟩ hP
        · rw [List.cons_append] at h2
          injection h2 with h3 h4
          subst h3
          exact absurd ⟨[], P'' ++ ['*'], by simp⟩ hP
      · rw [List.cons_append] at hx
        injection hx with h1 h2
        exact ih (fun hd => hP (hasDD_cons c hd)) ⟨x', m, r, h2⟩

theorem not_twoDD_single_block {a t : List Char} (ha : ¬ HasDD (a ++ ['*']))
    (ht : ¬ HasDD t) : ¬ TwoDD (a ++ '*' :: '*' :: t) := by
  induction a with
  | nil =>
      rintro ⟨x, m, r, hx⟩
      simp only [List.nil_append] at hx
      rcases x with _ | ⟨z1, x'⟩
      · obtain rfl : t = m ++ '*' :: '*' :: r := by simpa using hx
        exact ht ⟨m, r, rfl⟩
      · injection hx with h1 h2
        subst h1
        rcases x' with _ | ⟨z2, x''⟩
        · obtain rfl : t = '*' :: (m ++ '*' :: '*' :: r) := by simpa using h2
          exact ht ⟨'*' :: m, r, by simp⟩
        · injection h2 with h3 h4
          subst h3
          obtain rfl : t = x'' ++ '*' :: '*' :: (m ++ '*' :: '*' :: r) := by simpa using h4
          exact ht ⟨x'', m ++ '*' :: '*' :: r, rfl⟩
  | cons c a' ih =>
      rintro ⟨x, m, r, hx⟩
      rcases x with _ | ⟨z, x'⟩
      · rw [List.cons_append] at hx
        injection hx with h1 h2
        subst h1
        rcases a' with _ | ⟨y, a''⟩
        · exact ha ⟨[], [], rfl⟩
        · rw [List.cons_append] at h2
          injection h2 with h3 h4
          subst h3
          exact ha ⟨[], a'' ++ ['*'], by simp⟩
      · rw [List.cons_append] at hx
        injection hx with h1 h2
        exact ih (fun hd => ha (hasDD_cons c hd)) ⟨x', m, r, h2⟩

theorem strongRep_of_none {s : List Char} (h : findStrongPair s = none) :
    strongRep s = s := by
  rw [strongRep, h]

theorem strongRep_of_pair {s a m r : List Char} (h : findStrongPair s = some (a, m, r)) :
    strongRep s = a ++ "<strong>".data ++ m ++ "</strong>".data ++ strongRep r := by
  rw [strongRep, h]

theorem emRep_of_none {s : List Char} (h : findEmPair s = none) : emRep s = s := by
  rw [emRep, h]

theorem emRep_of_pair {s a m r : List Char} (h : findEmPair s = some (a, m, r)) :
    emRep s = a ++ "<em>".data ++ m ++ "</em>".data ++ emRep r := by
  rw [emRep, h]

theorem findStrongPair_none_not_twoDD {s : List Char} (h : findStrongPair s = none) :
    ¬ TwoDD s := by
  unfold findStrongPair at h
  split at h
  · rename_i h1
    exact fun htw => not_hasDD_of_none h1 (twoDD_hasDD htw)
  · rename_i a t h1
    split at h
    · rename_i h2
      obtain ⟨he, hno⟩ := splitDouble_some_parts h1
      rw [he]
      exact not_twoDD_single_block hno (not_hasDD_of_none h2)
    · simp at h

theorem noDDx_strong_open : ¬ HasDD ("<strong>".data ++ ['*']) := by
  rw [hasDD_iff_splitDouble]; decide

theorem noDDx_strong_close : ¬ HasDD ("</strong>".data ++ ['*']) := by
  rw [hasDD_iff_splitDouble]; decide

theorem noDDx_em_open : ¬ HasDD ("<em>".data ++ ['*']) := by
  rw [hasDD_iff_splitDouble]; decide

theorem noDDx_em_close : ¬ HasDD ("</em>".data ++ ['*']) := by
  rw [hasDD_iff_splitDouble]; decide

/-- The output of the global `**` replace never contains two disjoint `**`
occurrences: each replaced pair is gone, the stretches between pairs
contain no `**`, and an unpaired trailing `**` is alone. -/
theorem strongRep_not_twoDD (s : List Char) : ¬ TwoDD (strongRep s) := by
  generalize hn : s.length = n
  induction n using Nat.strong_induction_on generalizing s with
  | _ n ih =>
      subst hn
      cases hfp : findStrongPair s with
      | none =>
          rw [strongRep_of_none hfp]
          exact findStrongPair_none_not_twoDD hfp
      | some x =>
          obtain ⟨a, m, r⟩ := x
          rw [strongRep_of_pair hfp]
          have hfacts : ¬ HasDD (a ++ ['*']) ∧ ¬ HasDD (m ++ ['*']) := by
            unfold findStrongPair at hfp
            split at hfp
            · simp at hfp
            · rename_i a' t h1
              split at hfp
              · simp at hfp
              · rename_i m' r' h2
                obtain ⟨rfl, rfl, rfl⟩ : a' = a ∧ m' = m ∧ r' = r := by simpa using hfp
                exact ⟨(splitDouble_some_parts h1).2, (splitDouble_some_parts h2).2⟩
          intro htw
          have hP : ¬ HasDD (((a ++ "<strong>".data) ++ m) ++ "</strong>".data ++ ['*']) :=
            noDDx_append (noDDx_append (noDDx_append hfacts.1 noDDx_strong_open)
              hfacts.2) noDDx_strong_close
          exact ih r.length (findStrongPair_length hfp) r rfl
            (twoDD_drop_front hP htw)

/-- The `*` replace preserves the absence of two disjoint `**` occurrences
(its own pieces are star-free, and the remainder is a suffix of the
input). -/
theorem emRep_not_twoDD (s : List Char) : ¬ TwoDD s → ¬ TwoDD (emRep s) := by
  generalize hn : s.length = n
  induction n using Nat.strong_induction_on generalizing s with
  | _ n ih =>
      subst hn
      intro hs
      cases hfp : findEmPair s with
      | none =>
          rw [emRep_of_none hfp]
          exact hs
      | some x =>
          obtain ⟨a, m, r⟩ := x
          rw [emRep_of_pair hfp]
          have hfacts : '*' ∉ a ∧ '*' ∉ m ∧ s = a ++ '*' :: (m ++ '*' :: r) := by
            unfold findEmPair at hfp
            split at hfp
            · simp at hfp
            · rename_i a' t h1
              split at hfp
              · simp at hfp
              · rename_i m' r' h2
                obtain ⟨rfl, rfl, rfl⟩ : a' = a ∧ m' = m ∧ r' = r := by simpa using hfp
                obtain ⟨he1, hna⟩ := splitSingle_some_parts h1
                obtain ⟨he2, hnm⟩ := splitSingle_some_parts h2
                exact ⟨hna, hnm, by rw [he1, he2]⟩
          obtain ⟨hna, hnm, hseq⟩ := hfacts
          intro htw
          have hP : ¬ HasDD (((a ++ "<em>".data) ++ m) ++ "</em>".data ++ ['*']) :=
            noDDx_append (noDDx_append (noDDx_append (star_free_noDDx hna) noDDx_em_open)
              (star_free_noDDx hnm)) noDDx_em_close
          have hr : ¬ TwoDD r := by
            intro htr
            apply hs
            rw [hseq]
            exact twoDD_append_left a (twoDD_cons '*'
              (twoDD_append_left m (twoDD_cons '*' htr)))
          exact ih r.length (findEmPair_length hfp) r rfl hr (twoDD_drop_front hP htw)

theorem markdownFormat_not_twoDD (c : List Char) : ¬ TwoDD (markdownFormat c) := by
  unfold markdownFormat
  exact emRep_not_twoDD _ (strongRep_not_twoDD (brRep c))

/-- Any match of `propertyPattern` needs `**` twice, disjointly: once after
`🏠 ` and once before `<br>📍 `. -/
theorem matchCardAt_some_twoDD {s : List Char} {x : ChatPropertyCard × List Char}
    (h : matchCardAt s = some x) : TwoDD s := by
  unfold matchCardAt at h
  split at h
  · simp at h
  · rename_i s1 h1
    split at h
    · simp at h
    · rename_i num s2 h2
      split at h
      · simp at h
      · rename_i s3 h3
        have e1 := stripLit_some_eq h1
        have e2 := (takeDigits1_some_eq h2).1
        have e3 := stripLit_some_eq h3
        refine ⟨['🏠', ' '], "Property ".data ++ num, "<br>📍 ".data ++ s3, ?_⟩
        have hH : cardHeadMark = ['🏠', ' '] ++ '*' :: '*' :: "Property ".data := by decide
        have hM : cardMidMark = '*' :: '*' :: "<br>📍 ".data := by decide
        rw [e1, e2, e3, hH, hM]
        simp [List.append_assoc]

theorem scanCards_eq_nil : ∀ {s : List Char}, ¬ TwoDD s → scanCards s = [] := by
  intro s
  induction s with
  | nil => intro _; rw [scanCards]
  | cons c rest ih =>
      intro hs
      cases hm : matchCardAt (c :: rest) with
      | some x => exact absurd (matchCardAt_some_twoDD hm) hs
      | none =>
          rw [scanCards, hm]
          exact ih (fun ht => hs (twoDD_cons c ht))

/-! ## Claim theorems -/

theorem youSave_ne_fair (x : String) : "You save " ++ x ≠ "Fair value" := by
  intro h
  have hd := congrArg String.data h
  rw [String.data_append] at hd
  simp at hd

theorem formatMoney_neg_ne_fair {n : Int} (h : n < 0) : formatMoney n ≠ "Fair value" := by
  intro hh
  unfold formatMoney at hh
  rw [if_pos h] at hh
  have hd := congrArg String.data hh
  simp [String.data_append] at hd

/-- C1: reconciliation rule of the aggregator (spec-modelled, see
`aggregate`): when the estimator produced a signal whose confidence is high
or medium, the reconciled value is that estimate and the reconciled
confidence is that signal's confidence; when the estimator failed, timed
out, or produced a low- or no-confidence signal, the reconciled value is
the market amount at confidence medium.  `deltaFromMarket` is the
difference from the market amount, `isUndervalued` holds exactly for a
positive delta, and the aggregation always completes carrying at least the
market signal. -/
theorem aggregate_reconciliation_rule (pid : String) (market : PriceSignal)
    (tp : Option PriceSignal) (est : EstimatorOutcome) :
    (∀ g c, est = EstimatorOutcome.success g → g.confidence = some c →
        (c = Confidence.high ∨ c = Confidence.medium) →
        (aggregate pid market tp est).reconciledValue = g.amount ∧
          (aggregate pid market tp est).reconciledConfidence = c) ∧
    ((est = EstimatorOutcome.failure ∨ est = EstimatorOutcome.timeout ∨
        (∃ g, est = EstimatorOutcome.success g ∧
          (g.confidence = none ∨ g.confidence = some Confidence.low))) →
      (aggregate pid market tp est).reconciledValue = market.amount ∧
        (aggregate pid market tp est).reconciledConfidence = Confidence.medium) ∧
    (aggregate pid market tp est).deltaFromMarket =
      (aggregate pid market tp est).reconciledValue - market.amount ∧
    ((aggregate pid market tp est).isUndervalued = true ↔
      0 < (aggregate pid market tp est).deltaFromMarket) ∧
    market ∈ (aggregate pid market tp est).signals := by
  refine ⟨?_, ?_, ?_, ?_, ?_⟩
  · rintro g c rfl hconf hc
    rcases hc with rfl | rfl <;>
      simp [aggregate, usableGenerativeSignal, hconf]
  · rintro (rfl | rfl | ⟨g, rfl, hconf⟩)
    · simp [aggregate, usableGenerativeSignal]
    · simp [aggregate, usableGenerativeSignal]
    · rcases hconf with hcf | hcf <;> simp [aggregate, usableGenerativeSignal, hcf]
  · cases husable : usableGenerativeSignal est <;> simp [aggregate, husable]
  · cases husable : usableGenerativeSignal est <;> simp [aggregate, husable]
  · cases husable : usableGenerativeSignal est <;> simp [aggregate, husable]

/-- The spec's concrete scenario: market 450000 with a high-confidence
generative estimate of 478000 reconciles to 478000, delta 28000,
undervalued. -/
theorem aggregate_scenario_high_estimate :
    aggregate "p_001"
        { source := SignalSource.MarketAVM, amount := 450000 } none
        (EstimatorOutcome.success
          { source := SignalSource.GenerativeEstimate, amount := 478000,
            confidence := some Confidence.high }) =
      { propertyId := "p_001",
        signals := [{ source := SignalSource.MarketAVM, amount := 450000 },
          { source := SignalSource.GenerativeEstimate, amount := 478000,
            confidence := some Confidence.high }],
        reconciledValue := 478000, reconciledConfidence := Confidence.high,
        deltaFromMarket := 28000, isUndervalued := true } := by
  decide

/-- The spec's degraded scenario: an estimator timeout still yields a
result, valued at the market amount with medium confidence. -/
theorem aggregate_scenario_timeout :
    aggregate "p_001"
        { source := SignalSource.MarketAVM, amount := 450000 } none
        EstimatorOutcome.timeout =
      { propertyId := "p_001",
        signals := [{ source := SignalSource.MarketAVM, amount := 450000 }],
        reconciledValue := 450000, reconciledConfidence := Confidence.medium,
        deltaFromMarket := 0, isUndervalued := false } := by
  decide

/-- C2: the undervalued call-out in the marketplace grid
(`renderProperties`) and on the details page (`renderPropertyDetails`) is
driven by the raw difference `estValue - listPrice` with no tolerance band:
the positive style and "You save" text appear exactly when the difference
is strictly positive, the negative style exactly when strictly negative,
and the neutral "Fair value" label exactly when the difference is zero. -/
theorem savings_callout_no_tolerance (estValue listPrice : Int) :
    (savingsClass (estValue - listPrice) = "positive" ↔ 0 < estValue - listPrice) ∧
    (savingsClass (estValue - listPrice) = "negative" ↔ estValue - listPrice < 0) ∧
    (savingsText (estValue - listPrice) = "Fair value" ↔ estValue - listPrice = 0) ∧
    (savingsPillText (estValue - listPrice) = "Fair value" ↔ estValue - listPrice = 0) ∧
    savingsPillClass (estValue - listPrice) =
      "savings-pill " ++ savingsClass (estValue - listPrice) := by
  generalize estValue - listPrice = d
  rcases lt_trichotomy d 0 with h | rfl | h
  · have hng : ¬ d > 0 := by omega
    refine ⟨?_, ?_, ?_, ?_, ?_⟩
    · rw [savingsClass, if_neg hng, if_pos h]
      exact ⟨fun hh => absurd hh (by decide), fun hh => absurd hh (by omega)⟩
    · rw [savingsClass, if_neg hng, if_pos h]
      simp [h]
    · rw [savingsText, if_neg hng, if_pos h]
      exact ⟨fun hh => absurd hh (formatMoney_neg_ne_fair h),
        fun hh => absurd hh (by omega)⟩
    · rw [savingsPillText, if_neg hng, if_pos h]
      exact ⟨fun hh => absurd hh (formatMoney_neg_ne_fair h),
        fun hh => absurd hh (by omega)⟩
    · rw [savingsPillClass, savingsClass, if_neg hng, if_pos h, if_neg hng, if_pos h]
      decide
  · refine ⟨?_, ?_, ?_, ?_, ?_⟩
    · rw [savingsClass]
      norm_num
      decide
    · rw [savingsClass]
      norm_num
      decide
    · rw [savingsText]
      norm_num
    · rw [savingsPillText]
      norm_num
    · rw [savingsPillClass, savingsClass]
      norm_num
      decide
  · have hg : d > 0 := h
    have hn0 : d ≠ 0 := by omega
    refine ⟨?_, ?_, ?_, ?_, ?_⟩
    · rw [savingsClass, if_pos hg]
      simp [h]
    · rw [savingsClass, if_pos hg]
      exact ⟨fun hh => absurd hh (by decide), fun hh => absurd hh (by omega)⟩
    · rw [savingsText, if_pos hg]
      exact ⟨fun hh => absurd hh (youSave_ne_fair _), fun hh => absurd hh hn0⟩
    · rw [savingsPillText, if_pos hg]
      exact ⟨fun hh => absurd hh (youSave_ne_fair _), fun hh => absurd hh hn0⟩
    · rw [savingsPillClass, savingsClass, if_pos hg, if_pos hg]
      decide

/-- C3 counterexample: with select bounds min 300000 / max 200000, a
location and a selected property type, `getSearchFormData` emits the budget
with min > max unchanged and `handleSearch` still issues the request; and
`validateBudgetRange` flags equal positive bounds (300000/300000) as
invalid instead of permitting the tie. -/
theorem budget_inversion_reaches_request_cex :
    ((getSearchFormData
        { customBudgetToggle := false, customMinPrice := "", customMaxPrice := "",
          minPrice := "300000", maxPrice := "200000", demoLocation := "Austin, TX",
          primaryResidence := false, fixFlip := false, rentalProperty := true,
          multiFamily := false, quickDeals := false }).budget.min = 300000 ∧
      (getSearchFormData
        { customBudgetToggle := false, customMinPrice := "", customMaxPrice := "",
          minPrice := "300000", maxPrice := "200000", demoLocation := "Austin, TX",
          primaryResidence := false, fixFlip := false, rentalProperty := true,
          multiFamily := false, quickDeals := false }).budget.max = 200000 ∧
      handleSearchIssuesRequest
        { customBudgetToggle := false, customMinPrice := "", customMaxPrice := "",
          minPrice := "300000", maxPrice := "200000", demoLocation := "Austin, TX",
          primaryResidence := false, fixFlip := false, rentalProperty := true,
          multiFamily := false, quickDeals := false } = true) ∧
    validateBudgetRange
        { customBudgetToggle := false, customMinPrice := "", customMaxPrice := "",
          minPrice := "300000", maxPrice := "300000", demoLocation := "Austin, TX",
          primaryResidence := false, fixFlip := false, rentalProperty := true,
          multiFamily := false, quickDeals := false } = false := by
  decide

/-- C3 (amended): budget input processing performs no correction and
establishes no `min ≤ max` invariant: `validateBudgetRange` only returns
`false` (a console warning whose result nothing consults) exactly when both
parsed bounds are positive and min ≥ max — so equal positive bounds are
flagged rather than permitted — while `getSearchFormData` emits the parsed
bounds unchanged and the search path's validation ignores the budget
entirely (changing any budget field never changes whether the request is
issued). -/
theorem budget_validation_only_warns (f : DemoForm) (toggle : Bool)
    (p1 p2 p3 p4 : String) :
    (validateBudgetRange f = false ↔
      ((getSearchFormData f).budget.min > 0 ∧ (getSearchFormData f).budget.max > 0 ∧
        (getSearchFormData f).budget.min ≥ (getSearchFormData f).budget.max)) ∧
    handleSearchIssuesRequest
        { f with customBudgetToggle := toggle, customMinPrice := p1,
                 customMaxPrice := p2, minPrice := p3, maxPrice := p4 } =
      handleSearchIssuesRequest f := by
  constructor
  · simp only [validateBudgetRange, getSearchFormData]
    split_ifs <;> simp_all
  · rfl

/-- C4 counterexample: a genuinely supplied zero custom minimum ("0") and an
absent custom minimum ("") are both transmitted as `budget_min = null` by
`startChatbotWithFormData` — the claimed preservation of a supplied zero
bound fails, and 'bound absent' is conflated with 'bound equal to 0'. -/
theorem zero_bound_sent_as_null_cex :
    (buildFrontendData (getSearchFormData
        { customBudgetToggle := true, customMinPrice := "0",
          customMaxPrice := "500000", minPrice := "", maxPrice := "",
          demoLocation := "Austin, TX", primaryResidence := false, fixFlip := false,
          rentalProperty := true, multiFamily := false,
          quickDeals := false })).budget_min = none ∧
    (buildFrontendData (getSearchFormData
        { customBudgetToggle := true, customMinPrice := "",
          customMaxPrice := "500000", minPrice := "", maxPrice := "",
          demoLocation := "Austin, TX", primaryResidence := false, fixFlip := false,
          rentalProperty := true, multiFamily := false,
          quickDeals := false })).budget_min = none := by
  decide

/-- C4 (amended): absent numeric bounds are sent as null, but a genuinely
supplied zero is too: `getSearchFormData` defaults an absent bound to `0`
(`parseInt(x) || 0`) and `startChatbotWithFormData` maps any zero bound to
`null` (`x || null`), so a zero bound is never transmitted and absence
cannot be distinguished from zero. -/
theorem frontend_budget_zero_never_sent (f : DemoForm) :
    (buildFrontendData (getSearchFormData f)).budget_min ≠ some 0 ∧
    (buildFrontendData (getSearchFormData f)).budget_max ≠ some 0 := by
  refine ⟨?_, ?_⟩ <;>
    · simp only [buildFrontendData, jsOrNull]
      split_ifs with h <;> simp [h]

/-- C5: `handleSearch` issues the search request exactly when the location
input is non-empty after trimming and at least one of the five
property-type checkboxes is explicitly checked; with no checkbox checked no
category is assumed and the search is aborted before any request. -/
theorem search_requires_location_and_category (f : DemoForm) :
    handleSearchIssuesRequest f = true ↔
      (jsTrim f.demoLocation ≠ "" ∧
        (f.primaryResidence = true ∨ f.fixFlip = true ∨ f.rentalProperty = true ∨
          f.multiFamily = true ∨ f.quickDeals = true)) := by
  obtain ⟨ct, c1, c2, m1, m2, loc, pr, ff, rp, mf, qd⟩ := f
  simp only [handleSearchIssuesRequest, validateSearchData, getSearchFormData,
    getSelectedStrategies]
  by_cases hloc : jsTrim loc = ""
  · rw [if_pos (Or.inr hloc)]
    simp [hloc]
  · have hne : ¬ (loc = "" ∨ jsTrim loc = "") := by
      rintro (rfl | hh)
      · exact hloc (by decide)
      · exact hloc hh
    rw [if_neg hne]
    cases pr <;> cases ff <;> cases rp <;> cases mf <;> cases qd <;> simp [hloc]

/-- C8: the extracted strategy set contains every tag whose checkbox is
checked (multiple selections all apply), every returned tag belongs to the
fixed five-tag vocabulary, and a tag whose checkbox is unchecked never
appears. -/
theorem strategies_match_checkboxes (f : DemoForm) :
    (∀ t ∈ getSelectedStrategies f, t ∈ strategyVocabulary) ∧
    ("primary-residence" ∈ getSelectedStrategies f ↔ f.primaryResidence = true) ∧
    ("fix-flip" ∈ getSelectedStrategies f ↔ f.fixFlip = true) ∧
    ("rental-property" ∈ getSelectedStrategies f ↔ f.rentalProperty = true) ∧
    ("multi-family" ∈ getSelectedStrategies f ↔ f.multiFamily = true) ∧
    ("quick-deals" ∈ getSelectedStrategies f ↔ f.quickDeals = true) := by
  cases h1 : f.primaryResidence <;> cases h2 : f.fixFlip <;>
    cases h3 : f.rentalProperty <;> cases h4 : f.multiFamily <;>
      cases h5 : f.quickDeals <;>
        simp [getSelectedStrategies, strategyVocabulary, h1, h2, h3, h4, h5]

theorem chatStep_preserves_inv (st : ChatState) (ev : ChatEvent)
    (h : st.inflightRequests ≤ 1 ∧ (st.isTyping = false → st.inflightRequests = 0)) :
    (chatStep st ev).inflightRequests ≤ 1 ∧
      ((chatStep st ev).isTyping = false → (chatStep st ev).inflightRequests = 0) := by
  obtain ⟨h1, h2⟩ := h
  cases ev with
  | userSend v =>
      simp only [chatStep, sendMessage]
      split_ifs with hcond
      · exact ⟨h1, h2⟩
      · have ht : st.isTyping = false := by
          cases hb : st.isTyping with
          | false => rfl
          | true => exact absurd (Or.inr hb) hcond
        have h0 := h2 ht
        refine ⟨?_, ?_⟩
        · dsimp only
          omega
        · dsimp only
          simp
  | responseArrives =>
      simp only [chatStep]
      split_ifs with hcond
      · exact ⟨h1, h2⟩
      · refine ⟨?_, ?_⟩
        · dsimp only
          omega
        · dsimp only
          intro hx
          omega

theorem chatRun_foldl_inv (evs : List ChatEvent) :
    ∀ st : ChatState,
      st.inflightRequests ≤ 1 ∧ (st.isTyping = false → st.inflightRequests = 0) →
        (evs.foldl chatStep st).inflightRequests ≤ 1 ∧
          ((evs.foldl chatStep st).isTyping = false →
            (evs.foldl chatStep st).inflightRequests = 0) := by
  induction evs with
  | nil => intro st h; simpa using h
  | cons e evs ih =>
      intro st h
      simpa [List.foldl_cons] using ih (chatStep st e) (chatStep_preserves_inv st e h)

/-- C6: along every event trace of the chat widget, at most one message
request is in flight at a time, and while the typing indicator is active
(`isTyping`) `sendMessage` is a no-op — it never issues a second request,
so messages of one session reach the backend one at a time. -/
theorem chat_send_serialized (events : List ChatEvent) :
    (chatRun events).inflightRequests ≤ 1 ∧
      ((chatRun events).isTyping = true →
        ∀ v, sendMessage (chatRun events) v = chatRun events) := by
  have hinv := chatRun_foldl_inv events initialChatState (by simp [initialChatState])
  refine ⟨hinv.1, ?_⟩
  intro ht v
  unfold sendMessage
  rw [if_pos (Or.inr ht)]

theorem showPage_target_eq (pageId : String) :
    (pagesLookup pageId).orElse (fun _ => pagesLookup "home") =
      some ((pagesLookup pageId).getD "home-page") := by
  cases h : pagesLookup pageId with
  | none => decide
  | some t => rfl

/-- C9: `showPage` never fails for any `pageId`: it hides every page, shows
the element named by the `pages` table — falling back to the home page when
`pageId` is unmapped — and sets `currentPage` to the requested (possibly
unmapped) `pageId`.  The hypothesis says only that the target page element
exists in the document. -/
theorem showPage_fallback_spec (st : NavState) (pageId : String)
    (h : (pagesLookup pageId).getD "home-page" ∈ st.domIds) :
    showPage st pageId =
      { st with visiblePages := [(pagesLookup pageId).getD "home-page"],
                currentPage := pageId } := by
  unfold showPage
  rw [showPage_target_eq]
  simp only []
  rw [if_pos h]

/-- C9 witness: an unmapped pageId on a document holding all ten pages
falls back to displaying the home page while `currentPage` becomes the
unmapped id. -/
theorem showPage_fallback_spec_witness :
    showPage
        { domIds := ["home-page", "demo-page", "marketplace-page",
            "property-details-page", "pricing-page", "signin-page", "signup-page",
            "analyzer-page", "chat-page", "agent-connect-page"],
          visiblePages := ["demo-page"], currentPage := "demo" } "no-such-page" =
      { domIds := ["home-page", "demo-page", "marketplace-page",
          "property-details-page", "pricing-page", "signin-page", "signup-page",
          "analyzer-page", "chat-page", "agent-connect-page"],
        visiblePages := ["home-page"], currentPage := "no-such-page" } :=
  showPage_fallback_spec _ "no-such-page" (by decide)

/-- C10: for a propertyId not in `PROPERTIES`, `showPropertyDetails` is a
no-op on the program state (selected property, navigation and rendered
details all unchanged); for an id in the list it selects that property,
navigates to the property-details page and renders that property's
details. -/
theorem showPropertyDetails_state (st : AppState) (propertyId : String) :
    ((∀ p ∈ PROPERTIES, p.id ≠ propertyId) → showPropertyDetails st propertyId = st) ∧
    (∀ p ∈ PROPERTIES, p.id = propertyId →
      (showPropertyDetails st propertyId).selectedProperty = some p ∧
      (showPropertyDetails st propertyId).nav = showPage st.nav "property-details" ∧
      (showPropertyDetails st propertyId).renderedDetails = some p) := by
  constructor
  · intro hall
    unfold showPropertyDetails
    have hfind : PROPERTIES.find? (fun p => p.id = propertyId) = none := by
      rw [List.find?_eq_none]
      intro x hx
      simp [hall x hx]
    rw [hfind]
  · intro p hp hid
    subst hid
    have hp3 : p = PROPERTIES[0] ∨ p = PROPERTIES[1] ∨ p = PROPERTIES[2] := by
      simpa [PROPERTIES] using hp
    rcases hp3 with rfl | rfl | rfl <;> exact ⟨rfl, rfl, rfl⟩

/-- C7 counterexample: the claim says the rendering layer never round-trips
the reply text through a regex parse; but for this reply, which contains
the property-listing markers, `formatMessage` takes its card-scraping
branch and runs `propertyPattern` (and the intro/outro regexes) over the
text to rebuild property cards. -/
theorem formatMessage_scrape_branch_cex :
    attemptsCardScrape "🏠 **Property 1**<br>📍 123 Oak Street, Austin, TX" = true := by
  decide

/-- C7 (amended): the rendering layer receives only the prose reply and
`formatMessage` does attempt to scrape marker-bearing replies back into
structured cards with a regex; the attempt can never produce a card,
because the bold-markdown replace has already rewritten every pairable
`**` to `<strong>` tags before `propertyPattern` (which expects literal
`**`) runs — so every reply, marker-bearing or not, renders as the plain
formatted text. -/
theorem formatMessage_always_plain_text (content : String) :
    formatMessage content = String.mk (markdownFormat content.data) := by
  unfold formatMessage
  simp only []
  rw [scanCards_eq_nil (markdownFormat_not_twoDD content.data)]
  simp

end HomeValue
